import Mathlib

/-!
Verification of the game-logic layer of "99 Nights in the Forest".

The definitions below are a shallow embedding of the TypeScript sources:
`TimeManager` (day/night cycle driver), `GameManager` (global game state),
`NightManager` (night spawn driver), `GamePlayerEntity` (inventory),
`CraftingManager` (crafting), and `BaseEnemyEntity` (enemy damage/death).
Timer-driven behaviour is modelled as explicit state-transition functions;
engine calls (chat, UI, audio, persistence) have no observable effect on the
modelled state and are dropped.  Fields that exist only to observe behaviour
(for example a list of ids spawned during a night) are ghost state and are
noted as such where they appear.
-/

namespace NinetyNineNights

/-! ## Day/night cycle (TimeManager, `src/classes/managers/TimeManager.ts`) -/

/-- The five phases of the cycle, in the fixed declaration order of
`PHASE_DURATIONS_MS` in the source. -/
inductive DayPhase where
  | morning
  | afternoon
  | evening
  | night
  | dawn
deriving DecidableEq, Repr

/-- `PHASE_DURATIONS_MS`: morning 4min, afternoon 3min, evening 1min,
night 5min, dawn 1min, in milliseconds. -/
def PHASE_DURATIONS_MS : DayPhase → Nat
  | .morning => 4 * 60 * 1000
  | .afternoon => 3 * 60 * 1000
  | .evening => 1 * 60 * 1000
  | .night => 5 * 60 * 1000
  | .dawn => 1 * 60 * 1000

/-- The iteration order of `Object.keys(PHASE_DURATIONS_MS)` (JS object
insertion order). -/
def phaseOrder : List DayPhase := [.morning, .afternoon, .evening, .night, .dawn]

/-- `CYCLE_DURATION_MS = 14 * 60 * 1000`. -/
def CYCLE_DURATION_MS : Nat := 14 * 60 * 1000

/-! ## Global game state (GameManager, `src/classes/managers/GameManager.ts`) -/

/-- `GameState` of `src/types/gameTypes.ts`. -/
structure GameState where
  isStarted : Bool
  currentNight : Nat
  currentPhase : DayPhase
  campLevel : Nat
deriving DecidableEq, Repr

/-- The initial value of `GameManager.gameState` (also the value installed by
`resetGame`). -/
def initialGameState : GameState :=
  { isStarted := false, currentNight := 1, currentPhase := .morning, campLevel := 1 }

/-- `GameManager.advanceNight`: increments `currentNight`; when the new value
exceeds 99 it runs `victoryGame`, which (with a world attached) marks the game
as no longer started. -/
def advanceNight (g : GameState) : GameState :=
  let g' := { g with currentNight := g.currentNight + 1 }
  if g'.currentNight > 99 then { g' with isStarted := false } else g'

/-- Combined observable state of `TimeManager` (its own fields plus the
`GameManager` state it drives).  The world reference is modelled as present. -/
structure TimeState where
  elapsedMs : Nat
  currentPhase : DayPhase
  isRunning : Bool
  game : GameState
deriving DecidableEq, Repr

/-- `TimeManager.stop`: returns immediately when not running, otherwise clears
the running flag (and the tick interval). -/
def TimeManager.stop (s : TimeState) : TimeState :=
  if s.isRunning then { s with isRunning := false } else s

/-- `TimeManager.onCycleComplete`: advances the night via
`GameManager.advanceNight`; when the previous night was 99 and the new night is
100 it runs `onVictory`, which stops the cycle timer. -/
def onCycleComplete (s : TimeState) : TimeState :=
  let previousNight := s.game.currentNight
  let s' := { s with game := advanceNight s.game }
  if previousNight = 99 ∧ s'.game.currentNight = 100 then TimeManager.stop s' else s'

/-- The accumulating loop body of `TimeManager.calculatePhase`: walks the
phases in declaration order, returning the first phase whose cumulative
duration bracket contains the elapsed time. -/
def calcPhaseAux (elapsedMs : Nat) : Nat → List DayPhase → Option DayPhase
  | _, [] => none
  | accumulated, p :: rest =>
    let acc := accumulated + PHASE_DURATIONS_MS p
    if elapsedMs < acc then some p else calcPhaseAux elapsedMs acc rest

/-- `TimeManager.calculatePhase`: returns the phase bracketing the elapsed
time; when the cycle is complete it resets `elapsedMs` to 0, runs
`onCycleComplete`, and returns `MORNING`. -/
def calculatePhase (s : TimeState) : DayPhase × TimeState :=
  match calcPhaseAux s.elapsedMs 0 phaseOrder with
  | some p => (p, s)
  | none => (DayPhase.morning, onCycleComplete { s with elapsedMs := 0 })

/-! ## Night spawn driver (NightManager, `src/classes/managers/NightManager.ts`) -/

/-- `EnemyConfig` of `src/types/gameTypes.ts` (fields used by the modelled
code). -/
structure EnemyConfig where
  id : String
  health : Int
  damage : Int
  minNight : Nat
  xpReward : Nat
deriving DecidableEq, Repr

/-- Observable state of `NightManager`.  `spawnedIds` is ghost state recording
the config ids of the enemies spawned during the current night, in order. -/
structure NightState where
  isNightActive : Bool
  enemiesSpawned : Nat
  activeEnemies : Nat
  maxEnemiesThisNight : Nat
  spawnTimerActive : Bool
  spawnedIds : List String
deriving DecidableEq, Repr

/-- `NightManager.calculateMaxEnemies`: base 10 + 2 per night, capped at 50. -/
def calculateMaxEnemies (nightNumber : Nat) : Nat :=
  min 50 (10 + nightNumber * 2)

/-- `NightManager.calculateSpawnRate`: 5000ms minus 100ms per night, floored at
1500ms. -/
def calculateSpawnRate (nightNumber : Nat) : Int :=
  max 1500 (5000 - (nightNumber : Int) * 100)

/-- `NightManager.isBossNight`: membership in the fixed list
`[10, 25, 50, 75, 99]`. -/
def isBossNight (nightNumber : Nat) : Bool :=
  [10, 25, 50, 75, 99].contains nightNumber

/-- The boss-id selection cascade at the top of `NightManager.spawnBoss`. -/
def selectBossId (nightNumber : Nat) : String :=
  if nightNumber ≥ 99 then "ancient_guardian"
  else if nightNumber ≥ 75 then "ancient_guardian"
  else if nightNumber ≥ 50 then "hollow_stag"
  else if nightNumber ≥ 25 then "hollow_stag"
  else "hollow_stag"

/-- `NightManager.spawnBoss`: looks up the boss config; when missing it logs
and returns, otherwise it spawns the boss, tracks it, and bumps the
spawned counter. -/
def spawnBoss (enemiesConfig : String → Option EnemyConfig) (nightNumber : Nat)
    (s : NightState) : NightState :=
  match enemiesConfig (selectBossId nightNumber) with
  | none => s
  | some bossConfig =>
    { s with
      activeEnemies := s.activeEnemies + 1
      enemiesSpawned := s.enemiesSpawned + 1
      spawnedIds := s.spawnedIds ++ [bossConfig.id] }

/-- `NightManager.startNight`: a no-op when a night is already active;
otherwise resets the counters and either spawns a single boss immediately
(boss night, no spawn timer) or starts the repeating wave spawn timer. -/
def startNight (enemiesConfig : String → Option EnemyConfig) (nightNumber : Nat)
    (s : NightState) : NightState :=
  if s.isNightActive then s
  else
    let s1 := { s with
      isNightActive := true, enemiesSpawned := 0, activeEnemies := 0, spawnedIds := [] }
    if isBossNight nightNumber then
      let s2 := spawnBoss enemiesConfig nightNumber s1
      { s2 with maxEnemiesThisNight := 1 }
    else
      let s2 := { s1 with maxEnemiesThisNight := calculateMaxEnemies nightNumber }
      { s2 with spawnTimerActive := true }

/-- The public state-mutating operations of `GameManager` (the world reference
is modelled as present). -/
inductive GMOp where
  | startGame
  | endGame
  | advanceNightOp
  | setPhase (p : DayPhase)
  | upgradeCamp
  | resetGame
deriving DecidableEq, Repr

/-- One `GameManager` operation applied to the game state, following the
source: `startGame` is a no-op while started and otherwise begins a new
session at night 1; `endGame` clears the started flag; `advanceNight`
increments the night; `setPhase` and `upgradeCamp` leave the night alone;
`resetGame` restores the initial state. -/
def applyGMOp : GMOp → GameState → GameState
  | .startGame, g =>
    if g.isStarted then g
    else { g with isStarted := true, currentNight := 1, currentPhase := .morning }
  | .endGame, g => { g with isStarted := false }
  | .advanceNightOp, g => advanceNight g
  | .setPhase p, g => { g with currentPhase := p }
  | .upgradeCamp, g => { g with campLevel := g.campLevel + 1 }
  | .resetGame, _ => initialGameState

/-- Running a sequence of `GameManager` operations from the initial state. -/
def runGMOps (ops : List GMOp) : GameState :=
  ops.foldl (fun g op => applyGMOp op g) initialGameState

/-- A state about to complete a cycle on night 100: the new night 101 exceeds
99, so the victory transition fires, but the cycle timer is not stopped
(`onVictory` only runs for the exact transition 99 → 100). -/
def c8State : TimeState :=
  { elapsedMs := 840000, currentPhase := .dawn, isRunning := true,
    game := { isStarted := true, currentNight := 100, currentPhase := .dawn, campLevel := 1 } }

/-! ## Player inventory (GamePlayerEntity, `src/classes/entities/GamePlayerEntity.ts`) -/

/-- `InventoryItem` of `src/types/gameTypes.ts`: one inventory slot. -/
structure InventoryItem where
  itemId : String
  quantity : Nat
deriving DecidableEq, Repr

/-- `ItemConfig` of `src/types/gameTypes.ts` (the field the inventory code
reads). -/
structure ItemConfig where
  maxStack : Nat
deriving DecidableEq, Repr

/-- `GameManager.itemsConfig`: lookup table from item id to its
configuration. -/
abbrev ItemsConfig := String → Option ItemConfig

/-- `GamePlayerEntity.MAX_INVENTORY_SLOTS`. -/
def MAX_INVENTORY_SLOTS : Nat := 24

/-- `itemConfig.maxStack || 1` — a zero (falsy) configured max stack is
replaced by 1. -/
def effectiveMaxStack (cfg : ItemConfig) : Nat :=
  if cfg.maxStack = 0 then 1 else cfg.maxStack

/-- The first loop of `addItemToInventory`: walk the slots in list order,
topping up under-full stacks of the same item, returning early once nothing
remains. Returns the updated slots and the remaining quantity. -/
def stackExisting (itemId : String) (maxStack : Nat) :
    List InventoryItem → Nat → List InventoryItem × Nat
  | [], remaining => ([], remaining)
  | slot :: rest, remaining =>
    if slot.itemId = itemId ∧ slot.quantity < maxStack then
      let canAdd := min remaining (maxStack - slot.quantity)
      let slot' : InventoryItem := { slot with quantity := slot.quantity + canAdd }
      let remaining' := remaining - canAdd
      if remaining' = 0 then
        (slot' :: rest, 0)
      else
        let res := stackExisting itemId maxStack rest remaining'
        (slot' :: res.1, res.2)
    else
      let res := stackExisting itemId maxStack rest remaining
      (slot :: res.1, res.2)

/-- The second loop of `addItemToInventory`: while something remains and fewer
than 24 slots are occupied, push a new slot holding `min remaining maxStack`
units. -/
def pushNewSlots (itemId : String) (maxStack : Nat) (inv : List InventoryItem)
    (remaining : Nat) : List InventoryItem × Nat :=
  if h : 0 < remaining ∧ inv.length < MAX_INVENTORY_SLOTS then
    pushNewSlots itemId maxStack
      (inv ++ [{ itemId := itemId, quantity := min remaining maxStack }])
      (remaining - min remaining maxStack)
  else
    (inv, remaining)
termination_by MAX_INVENTORY_SLOTS - inv.length
decreasing_by
  simp only [List.length_append, List.length_cons, List.length_nil]
  omega

/-- `GamePlayerEntity.addItemToInventory`: fails on an unknown item; otherwise
tops up existing stacks first, then creates new slots, and reports whether
every unit was placed. -/
def addItemToInventory (config : ItemsConfig) (inv : List InventoryItem)
    (itemId : String) (quantity : Nat) : List InventoryItem × Bool :=
  match config itemId with
  | none => (inv, false)
  | some itemConfig =>
    let maxStack := effectiveMaxStack itemConfig
    let res1 := stackExisting itemId maxStack inv quantity
    let res2 := pushNewSlots itemId maxStack res1.1 res1.2
    (res2.1, res2.2 == 0)

/-- The loop of `removeItemFromInventory`, which walks the slots from the last
index down to 0.  The input list here is the reversed inventory, so the walk
is front-to-back; emptied slots are spliced out and the loop returns early
once nothing remains to remove. -/
def removeFromSlotsRev (itemId : String) :
    List InventoryItem → Nat → List InventoryItem × Nat
  | [], remaining => ([], remaining)
  | slot :: rest, remaining =>
    if slot.itemId = itemId then
      let canRemove := min remaining slot.quantity
      let newQuantity := slot.quantity - canRemove
      let remaining' := remaining - canRemove
      let kept : List InventoryItem :=
        if newQuantity = 0 then [] else [{ slot with quantity := newQuantity }]
      if remaining' = 0 then
        (kept ++ rest, 0)
      else
        let res := removeFromSlotsRev itemId rest remaining'
        (kept ++ res.1, res.2)
    else
      let res := removeFromSlotsRev itemId rest remaining
      (slot :: res.1, res.2)

/-- `GamePlayerEntity.removeItemFromInventory`: removes from slots in reverse
list order, deletes emptied slots, and reports whether the full requested
quantity was removed. -/
def removeItemFromInventory (inv : List InventoryItem) (itemId : String)
    (quantity : Nat) : List InventoryItem × Bool :=
  let res := removeFromSlotsRev itemId inv.reverse quantity
  (res.1.reverse, res.2 == 0)

/-- `GamePlayerEntity.getItemCount`: filter the slots by item id and sum the
quantities. -/
def getItemCount (inv : List InventoryItem) (itemId : String) : Nat :=
  ((inv.filter (fun slot => slot.itemId == itemId)).map (fun slot => slot.quantity)).sum

/-- `GamePlayerEntity.hasItems`. -/
def hasItems (inv : List InventoryItem) (itemId : String) (quantity : Nat) : Bool :=
  quantity ≤ getItemCount inv itemId

/-- Total free capacity of the existing under-full stacks of `itemId`
(how much the first loop of `addItemToInventory` can absorb). -/
def slotsFree (itemId : String) (maxStack : Nat) (inv : List InventoryItem) : Nat :=
  ((inv.filter (fun slot => slot.itemId == itemId && decide (slot.quantity < maxStack))).map
    (fun slot => maxStack - slot.quantity)).sum

/-- Total number of units of `itemId` that `addItemToInventory` can place into
`inv`: free room in existing stacks plus full stacks in the unoccupied slots
up to the 24-slot cap. -/
def addCapacity (maxStack : Nat) (itemId : String) (inv : List InventoryItem) : Nat :=
  slotsFree itemId maxStack inv + (MAX_INVENTORY_SLOTS - inv.length) * maxStack

/-- The inventory invariant of the spec: at most 24 populated slots, and every
slot holds between 1 and its item's configured max stack. -/
def InvInvariant (config : ItemsConfig) (inv : List InventoryItem) : Prop :=
  inv.length ≤ MAX_INVENTORY_SLOTS ∧
  ∀ slot ∈ inv, 1 ≤ slot.quantity ∧
    ∀ cfg, config slot.itemId = some cfg → slot.quantity ≤ cfg.maxStack

/-- Inventory states reachable from the empty inventory through
`addItemToInventory` and `removeItemFromInventory`. -/
inductive InvReachable (config : ItemsConfig) : List InventoryItem → Prop where
  | empty : InvReachable config []
  | add (inv : List InventoryItem) (itemId : String) (q : Nat) :
      InvReachable config inv → InvReachable config (addItemToInventory config inv itemId q).1
  | remove (inv : List InventoryItem) (itemId : String) (q : Nat) :
      InvReachable config inv → InvReachable config (removeItemFromInventory inv itemId q).1

/-! ## Crafting (CraftingManager, `src/classes/managers/CraftingManager.ts`) -/

/-- `RecipeConfig` of `src/types/gameTypes.ts` (fields the crafting code
reads): input item/quantity pairs, the output pair, and the craft delay. -/
structure RecipeConfig where
  inputs : List (String × Nat)
  output : String × Nat
  craftTime : Nat
deriving DecidableEq, Repr

/-- `GameManager.recipesConfig`. -/
abbrev RecipesConfig := String → Option RecipeConfig

/-- `InventoryManager.hasRecipeInputs` applied to a known recipe: every input
is present in at least the required quantity. -/
def hasRecipeInputs (inv : List InventoryItem) (recipe : RecipeConfig) : Bool :=
  recipe.inputs.all (fun input => decide (input.2 ≤ getItemCount inv input.1))

/-- Per-player crafting state: the inventory plus the player's entry in
`CraftingManager.activeCrafts` (the recipe id of the craft in flight, if
any). -/
structure CraftState where
  inventory : List InventoryItem
  activeCraft : Option String
deriving DecidableEq, Repr

/-- The input-consumption loop of `tryCraft`: one `removeItemFromInventory`
call per recipe input, in order. -/
def consumeInputs (inputs : List (String × Nat)) (inv : List InventoryItem) :
    List InventoryItem :=
  inputs.foldl (fun acc input => (removeItemFromInventory acc input.1 input.2).1) inv

/-- `CraftingManager.tryCraft`: rejects an unknown recipe, a craft already in
flight, or missing inputs, all without touching the inventory; otherwise it
deducts every input immediately, records the craft in flight (the completion
timer), and returns true.  The outputs are not added here — they are added by
`completeCraft` when the timer fires. -/
def tryCraft (recipes : RecipesConfig) (recipeId : String) (s : CraftState) :
    CraftState × Bool :=
  match recipes recipeId with
  | none => (s, false)
  | some recipe =>
    if s.activeCraft.isSome then (s, false)
    else if hasRecipeInputs s.inventory recipe then
      ({ inventory := consumeInputs recipe.inputs s.inventory,
         activeCraft := some recipeId }, true)
    else (s, false)

/-- `CraftingManager.completeCraft`: on an unknown recipe it returns leaving
the active craft in place; otherwise it clears the active craft and adds the
output through `addItemToInventory` — when that fails the crafted items are
simply lost (no refund of the inputs). -/
def completeCraft (config : ItemsConfig) (recipes : RecipesConfig)
    (recipeId : String) (s : CraftState) : CraftState :=
  match recipes recipeId with
  | none => s
  | some recipe =>
    { inventory := (addItemToInventory config s.inventory recipe.output.1 recipe.output.2).1,
      activeCraft := none }

/-! ## Enemy damage and death (BaseEnemyEntity, `src/classes/entities/enemies/BaseEnemyEntity.ts`) -/

/-- `BaseEnemyEntity.ATTACK_COOLDOWN_MS`. -/
def ATTACK_COOLDOWN_MS : Int := 1000

/-- Observable state of one enemy entity.  `deaths` is ghost state counting
executions of the body of `die` (XP award, loot drop, despawn), and
`playerHits` is ghost state counting damage applications by `attackPlayer`. -/
structure EnemyState where
  health : Int
  isDead : Bool
  attackCooldown : Int
  deaths : Nat
  playerHits : Nat
deriving DecidableEq, Repr

/-- The state of a freshly constructed enemy entity. -/
def spawnEnemyState (config : EnemyConfig) : EnemyState :=
  { health := config.health, isDead := false, attackCooldown := 0,
    deaths := 0, playerHits := 0 }

/-- `BaseEnemyEntity.die`: returns immediately when already dead; otherwise
marks the enemy dead and runs the death effects once. -/
def BaseEnemyEntity.die (s : EnemyState) : EnemyState :=
  if s.isDead then s else { s with isDead := true, deaths := s.deaths + 1 }

/-- `BaseEnemyEntity.takeDamage`: a no-op when dead; otherwise clamps health
at 0 and dies when it reaches 0. -/
def takeDamage (amount : Int) (s : EnemyState) : EnemyState :=
  if s.isDead then s
  else
    let s' := { s with health := max 0 (s.health - amount) }
    if s'.health ≤ 0 then BaseEnemyEntity.die s' else s'

/-- `BaseEnemyEntity.attackPlayer`: a no-op when dead; otherwise applies the
configured damage to the player (counted in the ghost field). -/
def attackPlayer (s : EnemyState) : EnemyState :=
  if s.isDead then s else { s with playerHits := s.playerHits + 1 }

/-- `BaseEnemyEntity.onCollisionWithPlayer`: a no-op when dead or while the
1-second attack cooldown has not elapsed; otherwise attacks and rearms the
cooldown. -/
def onCollisionWithPlayer (now : Int) (s : EnemyState) : EnemyState :=
  if s.isDead then s
  else if now - s.attackCooldown < ATTACK_COOLDOWN_MS then s
  else { attackPlayer s with attackCooldown := now }

/-- Enemy states reachable from spawn through damage, collisions and
attacks. -/
inductive EnemyReachable (config : EnemyConfig) : EnemyState → Prop where
  | spawn : EnemyReachable config (spawnEnemyState config)
  | damage (s : EnemyState) (amount : Int) :
      EnemyReachable config s → EnemyReachable config (takeDamage amount s)
  | collide (s : EnemyState) (now : Int) :
      EnemyReachable config s → EnemyReachable config (onCollisionWithPlayer now s)
  | attack (s : EnemyState) :
      EnemyReachable config s → EnemyReachable config (attackPlayer s)

/-! ## Theorems for the cycle and spawn formulas -/

theorem calcPhaseAux_eval (e : Nat) :
    calcPhaseAux e 0 phaseOrder =
      if e < 240000 then some .morning
      else if e < 420000 then some .afternoon
      else if e < 480000 then some .evening
      else if e < 780000 then some .night
      else if e < 840000 then some .dawn
      else none := by
  simp only [phaseOrder, calcPhaseAux, PHASE_DURATIONS_MS]

/-- C1: `calculatePhase` is a pure function of the elapsed cycle time: it
returns MORNING on [0, 240000), AFTERNOON on [240000, 420000), EVENING on
[420000, 480000), NIGHT on [480000, 780000), DAWN on [780000, 840000), and for
every elapsed time ≥ 840000 it wraps: elapsed time resets to 0, the night
counter increments, and MORNING is returned. -/
theorem C1_calculatePhase_brackets (s : TimeState) :
    (s.elapsedMs < 240000 → calculatePhase s = (.morning, s)) ∧
    (240000 ≤ s.elapsedMs → s.elapsedMs < 420000 → calculatePhase s = (.afternoon, s)) ∧
    (420000 ≤ s.elapsedMs → s.elapsedMs < 480000 → calculatePhase s = (.evening, s)) ∧
    (480000 ≤ s.elapsedMs → s.elapsedMs < 780000 → calculatePhase s = (.night, s)) ∧
    (780000 ≤ s.elapsedMs → s.elapsedMs < 840000 → calculatePhase s = (.dawn, s)) ∧
    (840000 ≤ s.elapsedMs →
      (calculatePhase s).1 = .morning ∧
      (calculatePhase s).2.elapsedMs = 0 ∧
      (calculatePhase s).2.game.currentNight = s.game.currentNight + 1) := by
  have hnight : ∀ t : TimeState, (onCycleComplete t).game.currentNight = t.game.currentNight + 1 := by
    intro t
    simp only [onCycleComplete, advanceNight, TimeManager.stop]
    repeat' split
    all_goals rfl
  have helapsed : ∀ t : TimeState, (onCycleComplete t).elapsedMs = t.elapsedMs := by
    intro t
    simp only [onCycleComplete, advanceNight, TimeManager.stop]
    repeat' split
    all_goals rfl
  refine ⟨fun h => ?_, fun h1 h2 => ?_, fun h1 h2 => ?_, fun h1 h2 => ?_, fun h1 h2 => ?_,
    fun h => ?_⟩
  · simp only [calculatePhase, calcPhaseAux_eval]
    rw [if_pos (by omega)]
  · simp only [calculatePhase, calcPhaseAux_eval]
    rw [if_neg (by omega), if_pos (by omega)]
  · simp only [calculatePhase, calcPhaseAux_eval]
    rw [if_neg (by omega), if_neg (by omega), if_pos (by omega)]
  · simp only [calculatePhase, calcPhaseAux_eval]
    rw [if_neg (by omega), if_neg (by omega), if_neg (by omega), if_pos (by omega)]
  · simp only [calculatePhase, calcPhaseAux_eval]
    rw [if_neg (by omega), if_neg (by omega), if_neg (by omega), if_neg (by omega),
      if_pos (by omega)]
  · simp only [calculatePhase, calcPhaseAux_eval]
    rw [if_neg (by omega), if_neg (by omega), if_neg (by omega), if_neg (by omega),
      if_neg (by omega)]
    exact ⟨rfl, helapsed _, hnight _⟩

/-- Witness for C1 at a concrete wrapped input. -/
theorem C1_calculatePhase_brackets_witness :
    (calculatePhase ⟨840000, .dawn, true, initialGameState⟩).1 = .morning ∧
    (calculatePhase ⟨840000, .dawn, true, initialGameState⟩).2.elapsedMs = 0 ∧
    (calculatePhase ⟨840000, .dawn, true, initialGameState⟩).2.game.currentNight =
      (⟨840000, .dawn, true, initialGameState⟩ : TimeState).game.currentNight + 1 :=
  (C1_calculatePhase_brackets ⟨840000, .dawn, true, initialGameState⟩).2.2.2.2.2 (by norm_num)

/-- C7: the per-night enemy cap is min(50, 10 + 2n) (12 for n = 1, 50 for
n = 20) and the spawn interval is max(1500, 5000 − 100n) milliseconds (4900 for
n = 1, 1500 for every n ≥ 40), monotonically decreasing in n until floored. -/
theorem C7_night_scaling (n : Nat) (hn : 1 ≤ n) :
    calculateMaxEnemies n = min 50 (10 + 2 * n) ∧
    calculateMaxEnemies 1 = 12 ∧
    calculateMaxEnemies 20 = 50 ∧
    calculateSpawnRate n = max 1500 (5000 - 100 * (n : Int)) ∧
    calculateSpawnRate 1 = 4900 ∧
    (40 ≤ n → calculateSpawnRate n = 1500) ∧
    (∀ m : Nat, n ≤ m → calculateSpawnRate m ≤ calculateSpawnRate n) := by
  refine ⟨?_, by decide, by decide, ?_, by decide, ?_, ?_⟩
  · simp only [calculateMaxEnemies]
    omega
  · simp only [calculateSpawnRate]
    ring_nf
  · intro h40
    have : (5000 - (n : Int) * 100) ≤ 1500 := by
      have : (40 : Int) ≤ (n : Int) := by exact_mod_cast h40
      nlinarith
    simp only [calculateSpawnRate]
    omega
  · intro m hm
    have : (5000 - (m : Int) * 100) ≤ 5000 - (n : Int) * 100 := by
      have : (n : Int) ≤ (m : Int) := by exact_mod_cast hm
      nlinarith
    exact max_le_max le_rfl this

/-- Witness for C7 at n = 40. -/
theorem C7_night_scaling_witness :
    calculateSpawnRate 40 = 1500 :=
  ((C7_night_scaling 40 (by norm_num)).2.2.2.2.2.1 (by norm_num))

/-- C6: boss nights are exactly {10, 25, 50, 75, 99}; `startNight` is a no-op
while a night is active; on a boss night it spawns exactly one enemy (the
configured boss) and starts no wave spawn timer; on any other night it starts
the repeating wave spawn timer. -/
theorem C6_startNight_boss_nights (enemiesConfig : String → Option EnemyConfig)
    (n : Nat) (s : NightState) :
    (isBossNight n = true ↔ n = 10 ∨ n = 25 ∨ n = 50 ∨ n = 75 ∨ n = 99) ∧
    (s.isNightActive = true → startNight enemiesConfig n s = s) ∧
    (s.isNightActive = false → isBossNight n = true →
      ∀ b, enemiesConfig (selectBossId n) = some b →
        (startNight enemiesConfig n s).enemiesSpawned = 1 ∧
        (startNight enemiesConfig n s).spawnedIds = [b.id] ∧
        (startNight enemiesConfig n s).spawnTimerActive = s.spawnTimerActive ∧
        (startNight enemiesConfig n s).maxEnemiesThisNight = 1) ∧
    (s.isNightActive = false → isBossNight n = false →
      (startNight enemiesConfig n s).spawnTimerActive = true ∧
      (startNight enemiesConfig n s).enemiesSpawned = 0) := by
  refine ⟨?_, fun h => ?_, fun h hb b hcfg => ?_, fun h hb => ?_⟩
  · simp [isBossNight, List.contains]
  · simp [startNight, h]
  · simp [startNight, spawnBoss, h, hb, hcfg]
  · simp [startNight, h, hb]

/-- Witness for C6: on night 10, from an inactive state, exactly one boss is
spawned and no wave timer starts. -/
theorem C6_startNight_boss_nights_witness :
    (startNight
        (fun id => if id = "hollow_stag" then some ⟨"hollow_stag", 500, 15, 10, 100⟩ else none)
        10 ⟨false, 0, 0, 10, false, []⟩).enemiesSpawned = 1 ∧
    (startNight
        (fun id => if id = "hollow_stag" then some ⟨"hollow_stag", 500, 15, 10, 100⟩ else none)
        10 ⟨false, 0, 0, 10, false, []⟩).spawnedIds = ["hollow_stag"] ∧
    (startNight
        (fun id => if id = "hollow_stag" then some ⟨"hollow_stag", 500, 15, 10, 100⟩ else none)
        10 ⟨false, 0, 0, 10, false, []⟩).spawnTimerActive =
      (⟨false, 0, 0, 10, false, []⟩ : NightState).spawnTimerActive ∧
    (startNight
        (fun id => if id = "hollow_stag" then some ⟨"hollow_stag", 500, 15, 10, 100⟩ else none)
        10 ⟨false, 0, 0, 10, false, []⟩).maxEnemiesThisNight = 1 :=
  (C6_startNight_boss_nights _ 10 _).2.2.1 rfl (by decide)
    ⟨"hollow_stag", 500, 15, 10, 100⟩ rfl

/-- C8 counterexample: completing a cycle on night 100 produces a new night of
101 > 99 and marks the game not started, yet the cycle timer keeps running,
contradicting the claim that the timer stops whenever the new night exceeds
99. -/
theorem C8_counterexample :
    (calculatePhase c8State).2.game.currentNight > 99 ∧
    (calculatePhase c8State).2.game.isStarted = false ∧
    (calculatePhase c8State).2.isRunning = true := by decide

/-- C8 (amended): whenever the cycle completes (elapsed time ≥ 14 minutes),
elapsed time resets to 0 and the night counter advances; whenever the new
night value exceeds 99 the game is marked no longer started; and the cycle
timer stops exactly on the transition from night 99 to night 100 (otherwise
its running flag is unchanged). -/
theorem C8_cycle_complete (s : TimeState) (h : 840000 ≤ s.elapsedMs) :
    (calculatePhase s).2.elapsedMs = 0 ∧
    (calculatePhase s).2.game.currentNight = s.game.currentNight + 1 ∧
    (99 < s.game.currentNight + 1 → (calculatePhase s).2.game.isStarted = false) ∧
    (calculatePhase s).2.isRunning = (s.isRunning && !(s.game.currentNight == 99)) := by
  obtain ⟨e, ph, run, g⟩ := s
  obtain ⟨st, night, gph, camp⟩ := g
  simp only at h ⊢
  have hwrap : calculatePhase ⟨e, ph, run, ⟨st, night, gph, camp⟩⟩ =
      (DayPhase.morning, onCycleComplete ⟨0, ph, run, ⟨st, night, gph, camp⟩⟩) := by
    simp only [calculatePhase, calcPhaseAux_eval]
    rw [if_neg (by omega), if_neg (by omega), if_neg (by omega), if_neg (by omega),
      if_neg (by omega)]
  rw [hwrap]
  simp only [onCycleComplete, advanceNight, TimeManager.stop]
  by_cases h99 : night = 99
  · subst h99
    cases run <;> simp
  · by_cases hgt : night + 1 > 99
    · cases run <;> simp [hgt, h99]
    · cases run <;> simp [hgt, h99]

/-- Witness for C8 (amended) at the 99 → 100 transition. -/
theorem C8_cycle_complete_witness :
    (calculatePhase ⟨840000, .dawn, true, ⟨true, 99, .dawn, 1⟩⟩).2.elapsedMs = 0 ∧
    (calculatePhase ⟨840000, .dawn, true, ⟨true, 99, .dawn, 1⟩⟩).2.game.currentNight =
      (⟨840000, .dawn, true, ⟨true, 99, .dawn, 1⟩⟩ : TimeState).game.currentNight + 1 ∧
    (99 < (⟨840000, .dawn, true, ⟨true, 99, .dawn, 1⟩⟩ : TimeState).game.currentNight + 1 →
      (calculatePhase ⟨840000, .dawn, true, ⟨true, 99, .dawn, 1⟩⟩).2.game.isStarted = false) ∧
    (calculatePhase ⟨840000, .dawn, true, ⟨true, 99, .dawn, 1⟩⟩).2.isRunning =
      ((⟨840000, .dawn, true, ⟨true, 99, .dawn, 1⟩⟩ : TimeState).isRunning &&
        !((⟨840000, .dawn, true, ⟨true, 99, .dawn, 1⟩⟩ : TimeState).game.currentNight == 99)) :=
  C8_cycle_complete ⟨840000, .dawn, true, ⟨true, 99, .dawn, 1⟩⟩ (by norm_num)

/-- C9 counterexample: after the reachable sequence start, advance ×4, end,
the night is 5; the next `startGame` (which is not `resetGame`) drops it back
to 1, so an operation other than the explicit reset decreases
`currentNight`. -/
theorem C9_counterexample :
    (runGMOps [.startGame, .advanceNightOp, .advanceNightOp, .advanceNightOp,
        .advanceNightOp, .endGame]).currentNight = 5 ∧
    (applyGMOp .startGame (runGMOps [.startGame, .advanceNightOp, .advanceNightOp,
        .advanceNightOp, .advanceNightOp, .endGame])).currentNight = 1 := by decide

/-- C9 (amended): `currentNight` is increased only by the night-advance
transition (`advanceNight`), and decreased only by `resetGame` or by
`startGame` (which explicitly re-initializes a new session at night 1); every
other operation leaves it unchanged. -/
theorem C9_night_monotonic (g : GameState) (hg : 1 ≤ g.currentNight) (op : GMOp) :
    (g.currentNight < (applyGMOp op g).currentNight → op = .advanceNightOp) ∧
    ((applyGMOp op g).currentNight < g.currentNight → op = .resetGame ∨ op = .startGame) ∧
    (op ≠ .advanceNightOp → op ≠ .resetGame → op ≠ .startGame →
      (applyGMOp op g).currentNight = g.currentNight) := by
  obtain ⟨st, night, gph, camp⟩ := g
  simp only at hg
  cases op
  case startGame =>
    cases st
    · exact ⟨fun h => absurd h (by simp [applyGMOp]; omega),
        fun _ => Or.inr rfl, fun _ _ h3 => absurd rfl h3⟩
    · exact ⟨fun h => absurd h (by simp [applyGMOp]),
        fun h => absurd h (by simp [applyGMOp]), fun _ _ _ => rfl⟩
  case endGame =>
    exact ⟨fun h => absurd h (by simp [applyGMOp]),
      fun h => absurd h (by simp [applyGMOp]), fun _ _ _ => rfl⟩
  case advanceNightOp =>
    refine ⟨fun _ => rfl, fun h => ?_, fun h1 _ _ => absurd rfl h1⟩
    simp only [applyGMOp, advanceNight] at h
    split at h <;> simp only at h <;> omega
  case setPhase p =>
    exact ⟨fun h => absurd h (by simp [applyGMOp]),
      fun h => absurd h (by simp [applyGMOp]), fun _ _ _ => rfl⟩
  case upgradeCamp =>
    exact ⟨fun h => absurd h (by simp [applyGMOp]),
      fun h => absurd h (by simp [applyGMOp]), fun _ _ _ => rfl⟩
  case resetGame =>
    exact ⟨fun h => absurd h (by simp [applyGMOp, initialGameState]; omega),
      fun _ => Or.inl rfl, fun _ h2 _ => absurd rfl h2⟩

/-- Witness for C9 (amended): `upgradeCamp` leaves the night unchanged. -/
theorem C9_night_monotonic_witness :
    (applyGMOp .upgradeCamp initialGameState).currentNight = initialGameState.currentNight :=
  (C9_night_monotonic initialGameState (by decide) .upgradeCamp).2.2
    (by decide) (by decide) (by decide)

/-! ## Inventory counting lemmas -/

theorem getItemCount_nil (itemId : String) : getItemCount [] itemId = 0 := rfl

theorem getItemCount_cons (slot : InventoryItem) (rest : List InventoryItem) (itemId : String) :
    getItemCount (slot :: rest) itemId =
      (if slot.itemId = itemId then slot.quantity else 0) + getItemCount rest itemId := by
  by_cases h : slot.itemId = itemId <;> simp [getItemCount, List.filter_cons, h]

theorem getItemCount_append (l1 l2 : List InventoryItem) (itemId : String) :
    getItemCount (l1 ++ l2) itemId = getItemCount l1 itemId + getItemCount l2 itemId := by
  simp [getItemCount, List.filter_append]

theorem getItemCount_reverse (l : List InventoryItem) (itemId : String) :
    getItemCount l.reverse itemId = getItemCount l itemId := by
  simp [getItemCount, List.filter_reverse, List.map_reverse, List.sum_reverse]

theorem getItemCount_singleton (slot : InventoryItem) (itemId : String) :
    getItemCount [slot] itemId = if slot.itemId = itemId then slot.quantity else 0 := by
  rw [getItemCount_cons, getItemCount_nil, Nat.add_zero]

theorem slotsFree_nil (itemId : String) (ms : Nat) : slotsFree itemId ms [] = 0 := rfl

theorem slotsFree_cons (itemId : String) (ms : Nat) (slot : InventoryItem)
    (rest : List InventoryItem) :
    slotsFree itemId ms (slot :: rest) =
      (if slot.itemId = itemId ∧ slot.quantity < ms then ms - slot.quantity else 0)
        + slotsFree itemId ms rest := by
  by_cases h1 : slot.itemId = itemId <;> by_cases h2 : slot.quantity < ms <;>
    simp [slotsFree, List.filter_cons, h1, h2]

/-- The pointwise relation between the slots before and after the top-up loop
of `addItemToInventory`. -/
def ToppedUp (itemId : String) (ms : Nat) (s s' : InventoryItem) : Prop :=
  s'.itemId = s.itemId ∧ s.quantity ≤ s'.quantity ∧
    s'.quantity ≤ max s.quantity ms ∧ (¬(s.itemId = itemId ∧ s.quantity < ms) → s' = s)

theorem toppedUp_rfl (itemId : String) (ms : Nat) (l : List InventoryItem) :
    List.Forall₂ (ToppedUp itemId ms) l l := by
  induction l with
  | nil => exact List.Forall₂.nil
  | cons a l ih => exact List.Forall₂.cons ⟨rfl, le_rfl, le_max_left _ _, fun _ => rfl⟩ ih

theorem stackExisting_spec (itemId : String) (ms : Nat) :
    ∀ (inv : List InventoryItem) (r : Nat),
      (stackExisting itemId ms inv r).2 = r - slotsFree itemId ms inv ∧
      getItemCount (stackExisting itemId ms inv r).1 itemId
        = getItemCount inv itemId + min r (slotsFree itemId ms inv) ∧
      (∀ other, other ≠ itemId →
        getItemCount (stackExisting itemId ms inv r).1 other = getItemCount inv other) ∧
      List.Forall₂ (ToppedUp itemId ms) inv (stackExisting itemId ms inv r).1 := by
  intro inv
  induction inv with
  | nil =>
    intro r
    simp [stackExisting, slotsFree_nil, getItemCount_nil, List.Forall₂.nil]
  | cons slot rest ih =>
    intro r
    by_cases hmatch : slot.itemId = itemId ∧ slot.quantity < ms
    · obtain ⟨hid, hlt⟩ := hmatch
      have hfree : slotsFree itemId ms (slot :: rest) =
          (ms - slot.quantity) + slotsFree itemId ms rest := by
        rw [slotsFree_cons, if_pos ⟨hid, hlt⟩]
      have hne : ∀ other, other ≠ itemId → slot.itemId ≠ other := by
        intro other hother hc
        rw [hid] at hc
        exact hother hc.symm
      by_cases hdone : r - min r (ms - slot.quantity) = 0
      · have hres : stackExisting itemId ms (slot :: rest) r =
            ({ slot with quantity := slot.quantity + min r (ms - slot.quantity) } :: rest, 0) := by
          simp only [stackExisting]
          rw [if_pos ⟨hid, hlt⟩, if_pos hdone]
        rw [hres]
        refine ⟨?_, ?_, ?_, ?_⟩
        · rw [hfree]
          omega
        · rw [getItemCount_cons, getItemCount_cons, if_pos hid, if_pos hid, hfree]
          dsimp only
          omega
        · intro other hother
          rw [getItemCount_cons, getItemCount_cons, if_neg (hne other hother),
            if_neg (hne other hother)]
        · refine List.Forall₂.cons ⟨rfl, by dsimp only; omega, by dsimp only; omega,
            fun hc => absurd ⟨hid, hlt⟩ hc⟩ (toppedUp_rfl itemId ms rest)
      · have hres : stackExisting itemId ms (slot :: rest) r =
            ({ slot with quantity := slot.quantity + min r (ms - slot.quantity) } ::
                (stackExisting itemId ms rest (r - min r (ms - slot.quantity))).1,
              (stackExisting itemId ms rest (r - min r (ms - slot.quantity))).2) := by
          simp only [stackExisting]
          rw [if_pos ⟨hid, hlt⟩, if_neg hdone]
        obtain ⟨ih1, ih2, ih3, ih4⟩ := ih (r - min r (ms - slot.quantity))
        rw [hres]
        refine ⟨?_, ?_, ?_, ?_⟩
        · rw [ih1, hfree]
          omega
        · rw [getItemCount_cons, getItemCount_cons, if_pos hid, if_pos hid, ih2, hfree]
          dsimp only
          omega
        · intro other hother
          rw [getItemCount_cons, getItemCount_cons, ih3 other hother,
            if_neg (hne other hother), if_neg (hne other hother)]
        · exact List.Forall₂.cons ⟨rfl, by dsimp only; omega, by dsimp only; omega,
            fun hc => absurd ⟨hid, hlt⟩ hc⟩ ih4
    · have hfree : slotsFree itemId ms (slot :: rest) = slotsFree itemId ms rest := by
        rw [slotsFree_cons, if_neg hmatch, Nat.zero_add]
      have hres : stackExisting itemId ms (slot :: rest) r =
          (slot :: (stackExisting itemId ms rest r).1, (stackExisting itemId ms rest r).2) := by
        simp only [stackExisting]
        rw [if_neg hmatch]
      obtain ⟨ih1, ih2, ih3, ih4⟩ := ih r
      rw [hres]
      refine ⟨by rw [ih1, hfree], ?_, ?_, ?_⟩
      · rw [getItemCount_cons, getItemCount_cons, ih2, hfree]
        omega
      · intro other hother
        rw [getItemCount_cons, getItemCount_cons, ih3 other hother]
      · exact List.Forall₂.cons ⟨rfl, le_rfl, le_max_left _ _, fun _ => rfl⟩ ih4

theorem pushNewSlots_spec (itemId : String) (ms : Nat) (hms : 0 < ms) :
    ∀ (inv : List InventoryItem) (r : Nat),
      ∃ tail : List InventoryItem,
        (pushNewSlots itemId ms inv r).1 = inv ++ tail ∧
        (∀ s ∈ tail, s.itemId = itemId ∧ 1 ≤ s.quantity ∧ s.quantity ≤ ms) ∧
        (tail ≠ [] → inv.length < MAX_INVENTORY_SLOTS) ∧
        (pushNewSlots itemId ms inv r).2
          = r - (MAX_INVENTORY_SLOTS - inv.length) * ms ∧
        getItemCount (pushNewSlots itemId ms inv r).1 itemId
          = getItemCount inv itemId + min r ((MAX_INVENTORY_SLOTS - inv.length) * ms) ∧
        (∀ other, other ≠ itemId →
          getItemCount (pushNewSlots itemId ms inv r).1 other = getItemCount inv other) ∧
        (pushNewSlots itemId ms inv r).1.length ≤ max MAX_INVENTORY_SLOTS inv.length := by
  intro inv r
  induction inv, r using pushNewSlots.induct itemId ms with
  | case1 inv r h ih =>
    have hstep : pushNewSlots itemId ms inv r =
        pushNewSlots itemId ms
          (inv ++ [{ itemId := itemId, quantity := min r ms }]) (r - min r ms) := by
      rw [pushNewSlots]
      rw [dif_pos h]
    obtain ⟨tail', ht1, ht2, ht3, ht4, ht5, ht6, ht7⟩ := ih
    have hlen : (inv ++ [({ itemId := itemId, quantity := min r ms } : InventoryItem)]).length
        = inv.length + 1 := by simp
    have hK : MAX_INVENTORY_SLOTS - inv.length
        = (MAX_INVENTORY_SLOTS - (inv.length + 1)) + 1 := by omega
    refine ⟨({ itemId := itemId, quantity := min r ms } : InventoryItem) :: tail', ?_, ?_, ?_,
      ?_, ?_, ?_, ?_⟩
    · rw [hstep, ht1, List.append_assoc]
      rfl
    · intro s hs
      rcases List.mem_cons.mp hs with hs | hs
      · subst hs
        exact ⟨rfl, by dsimp only; omega, min_le_right _ _⟩
      · exact ht2 s hs
    · intro _
      exact h.2
    · rw [hstep, ht4, hlen, hK, Nat.succ_mul]
      generalize (MAX_INVENTORY_SLOTS - (inv.length + 1)) * ms = A
      omega
    · rw [hstep, ht5, hlen, hK, Nat.succ_mul, getItemCount_append, getItemCount_singleton,
        if_pos rfl]
      dsimp only
      generalize (MAX_INVENTORY_SLOTS - (inv.length + 1)) * ms = A
      omega
    · intro other hother
      rw [hstep, ht6 other hother, getItemCount_append, getItemCount_singleton,
        if_neg (fun hc => hother hc.symm), Nat.add_zero]
    · rw [hstep]
      have := ht7
      rw [hlen] at this
      omega
  | case2 inv r h =>
    have hstep : pushNewSlots itemId ms inv r = (inv, r) := by
      rw [pushNewSlots]
      rw [dif_neg h]
    push_neg at h
    refine ⟨[], by rw [hstep]; simp, by simp, fun hc => absurd rfl hc, ?_, ?_, ?_, ?_⟩
    · rw [hstep]
      dsimp only
      rcases Nat.eq_zero_or_pos r with hr | hr
      · subst hr
        generalize (MAX_INVENTORY_SLOTS - inv.length) * ms = A
        omega
      · have hlen : MAX_INVENTORY_SLOTS - inv.length = 0 := by
          have := h hr
          omega
        rw [hlen, Nat.zero_mul, Nat.sub_zero]
    · rw [hstep]
      dsimp only
      rcases Nat.eq_zero_or_pos r with hr | hr
      · subst hr
        generalize (MAX_INVENTORY_SLOTS - inv.length) * ms = A
        omega
      · have hlen : MAX_INVENTORY_SLOTS - inv.length = 0 := by
          have := h hr
          omega
        rw [hlen, Nat.zero_mul]
        omega
    · intro other _
      rw [hstep]
    · rw [hstep]
      exact le_max_right _ _

theorem effectiveMaxStack_pos (cfg : ItemConfig) : 0 < effectiveMaxStack cfg := by
  unfold effectiveMaxStack
  split <;> omega

theorem addItem_spec (config : ItemsConfig) (inv : List InventoryItem) (itemId : String)
    (q : Nat) (cfg : ItemConfig) (hcfg : config itemId = some cfg) :
    getItemCount (addItemToInventory config inv itemId q).1 itemId
      = getItemCount inv itemId + min q (addCapacity (effectiveMaxStack cfg) itemId inv) ∧
    ((addItemToInventory config inv itemId q).2 = true ↔
      q ≤ addCapacity (effectiveMaxStack cfg) itemId inv) ∧
    (∀ other, other ≠ itemId →
      getItemCount (addItemToInventory config inv itemId q).1 other = getItemCount inv other) ∧
    (addItemToInventory config inv itemId q).1.length ≤ max MAX_INVENTORY_SLOTS inv.length ∧
    ∃ topped tail, (addItemToInventory config inv itemId q).1 = topped ++ tail ∧
      List.Forall₂ (ToppedUp itemId (effectiveMaxStack cfg)) inv topped ∧
      (∀ s ∈ tail, s.itemId = itemId ∧ 1 ≤ s.quantity ∧ s.quantity ≤ effectiveMaxStack cfg) ∧
      (tail ≠ [] → inv.length < MAX_INVENTORY_SLOTS) := by
  have hms : 0 < effectiveMaxStack cfg := effectiveMaxStack_pos cfg
  set ms := effectiveMaxStack cfg with hms_def
  have hadd : addItemToInventory config inv itemId q =
      ((pushNewSlots itemId ms (stackExisting itemId ms inv q).1
          (stackExisting itemId ms inv q).2).1,
        (pushNewSlots itemId ms (stackExisting itemId ms inv q).1
          (stackExisting itemId ms inv q).2).2 == 0) := by
    simp only [addItemToInventory, hcfg]
  obtain ⟨hs1, hs2, hs3, hs4⟩ := stackExisting_spec itemId ms inv q
  obtain ⟨tail, hp1, hp2, hp3, hp4, hp5, hp6, hp7⟩ :=
    pushNewSlots_spec itemId ms hms (stackExisting itemId ms inv q).1
      (stackExisting itemId ms inv q).2
  have hlen_eq : (stackExisting itemId ms inv q).1.length = inv.length := hs4.length_eq.symm
  refine ⟨?_, ?_, ?_, ?_, ?_⟩
  · rw [hadd]
    dsimp only
    rw [hp5, hs2, hs1, hlen_eq]
    unfold addCapacity
    generalize (MAX_INVENTORY_SLOTS - inv.length) * ms = A
    generalize slotsFree itemId ms inv = F
    omega
  · rw [hadd]
    dsimp only
    simp only [beq_iff_eq]
    rw [hp4, hs1, hlen_eq]
    unfold addCapacity
    generalize (MAX_INVENTORY_SLOTS - inv.length) * ms = A
    generalize slotsFree itemId ms inv = F
    omega
  · intro other hother
    rw [hadd]
    dsimp only
    rw [hp6 other hother, hs3 other hother]
  · rw [hadd]
    dsimp only
    rw [hlen_eq] at hp7
    exact hp7
  · refine ⟨(stackExisting itemId ms inv q).1, tail, ?_, hs4, hp2, ?_⟩
    · rw [hadd]
      exact hp1
    · intro hne
      rw [hlen_eq] at hp3
      exact hp3 hne

theorem removeFromSlotsRev_spec (itemId : String) :
    ∀ (l : List InventoryItem) (r : Nat),
      (removeFromSlotsRev itemId l r).2 = r - getItemCount l itemId ∧
      getItemCount (removeFromSlotsRev itemId l r).1 itemId = getItemCount l itemId - r ∧
      (∀ other, other ≠ itemId →
        getItemCount (removeFromSlotsRev itemId l r).1 other = getItemCount l other) ∧
      (∀ s' ∈ (removeFromSlotsRev itemId l r).1,
        s' ∈ l ∨ ∃ s ∈ l, s'.itemId = s.itemId ∧ 1 ≤ s'.quantity ∧ s'.quantity ≤ s.quantity) ∧
      (removeFromSlotsRev itemId l r).1.length ≤ l.length := by
  intro l
  induction l with
  | nil =>
    intro r
    simp [removeFromSlotsRev, getItemCount_nil]
  | cons slot rest ih =>
    intro r
    have hcount : getItemCount (slot :: rest) itemId =
        (if slot.itemId = itemId then slot.quantity else 0) + getItemCount rest itemId :=
      getItemCount_cons slot rest itemId
    by_cases hid : slot.itemId = itemId
    · rw [if_pos hid] at hcount
      by_cases hdone : r - min r slot.quantity = 0
      · have hres : removeFromSlotsRev itemId (slot :: rest) r =
            ((if slot.quantity - min r slot.quantity = 0 then ([] : List InventoryItem)
              else [{ slot with quantity := slot.quantity - min r slot.quantity }]) ++ rest,
              0) := by
          simp only [removeFromSlotsRev]
          rw [if_pos hid, if_pos hdone]
        have hkept : ∀ other,
            getItemCount (if slot.quantity - min r slot.quantity = 0 then ([] : List InventoryItem)
              else [{ slot with quantity := slot.quantity - min r slot.quantity }]) other
            = if slot.itemId = other then slot.quantity - min r slot.quantity else 0 := by
          intro other
          split
          · next hz =>
            rw [getItemCount_nil, hz]
            split <;> rfl
          · rw [getItemCount_singleton]
        rw [hres]
        refine ⟨?_, ?_, ?_, ?_, ?_⟩
        · dsimp only
          rw [hcount]
          omega
        · dsimp only
          rw [getItemCount_append, hkept itemId, if_pos hid, hcount]
          omega
        · intro other hother
          have hne : slot.itemId ≠ other := by
            rw [hid]
            exact fun hc => hother hc.symm
          dsimp only
          rw [getItemCount_append, hkept other, if_neg hne, getItemCount_cons, if_neg hne]
        · intro s' hs'
          dsimp only at hs'
          rcases List.mem_append.mp hs' with hk | hr
          · refine Or.inr ⟨slot, List.mem_cons_self _ _, ?_⟩
            revert hk
            split
            · intro hk
              exact absurd hk (List.not_mem_nil s')
            · next hz =>
              intro hk
              rcases List.mem_singleton.mp hk with rfl
              exact ⟨rfl, by dsimp only; omega, by dsimp only; omega⟩
          · exact Or.inl (List.mem_cons_of_mem slot hr)
        · dsimp only
          rw [List.length_append]
          have hkl : (if slot.quantity - min r slot.quantity = 0 then ([] : List InventoryItem)
              else [{ slot with quantity := slot.quantity - min r slot.quantity }]).length ≤ 1 := by
            split <;> simp
          simp only [List.length_cons]
          omega
      · have hq : min r slot.quantity = slot.quantity := by omega
        have hres : removeFromSlotsRev itemId (slot :: rest) r =
            ((removeFromSlotsRev itemId rest (r - min r slot.quantity)).1,
              (removeFromSlotsRev itemId rest (r - min r slot.quantity)).2) := by
          simp only [removeFromSlotsRev]
          rw [if_pos hid, if_neg hdone, hq]
          simp
        obtain ⟨ih1, ih2, ih3, ih4, ih5⟩ := ih (r - min r slot.quantity)
        rw [hres]
        refine ⟨?_, ?_, ?_, ?_, ?_⟩
        · rw [ih1, hcount]
          omega
        · rw [ih2, hcount]
          omega
        · intro other hother
          have hne : slot.itemId ≠ other := by
            rw [hid]
            exact fun hc => hother hc.symm
          rw [ih3 other hother, getItemCount_cons, if_neg hne]
          omega
        · intro s' hs'
          rcases ih4 s' hs' with h | ⟨s, hsmem, hrest⟩
          · exact Or.inl (List.mem_cons_of_mem slot h)
          · exact Or.inr ⟨s, List.mem_cons_of_mem slot hsmem, hrest⟩
        · calc (removeFromSlotsRev itemId rest (r - min r slot.quantity)).1.length
              ≤ rest.length := ih5
            _ ≤ (slot :: rest).length := by simp
    · rw [if_neg hid] at hcount
      have hres : removeFromSlotsRev itemId (slot :: rest) r =
          (slot :: (removeFromSlotsRev itemId rest r).1,
            (removeFromSlotsRev itemId rest r).2) := by
        simp only [removeFromSlotsRev]
        rw [if_neg hid]
      obtain ⟨ih1, ih2, ih3, ih4, ih5⟩ := ih r
      rw [hres]
      refine ⟨?_, ?_, ?_, ?_, ?_⟩
      · rw [ih1, hcount]
        omega
      · rw [getItemCount_cons, if_neg hid, ih2, hcount]
        omega
      · intro other hother
        rw [getItemCount_cons, ih3 other hother, getItemCount_cons]
      · intro s' hs'
        rcases List.mem_cons.mp hs' with rfl | hs'
        · exact Or.inl (List.mem_cons_self _ _)
        · rcases ih4 s' hs' with h | ⟨s, hsmem, hrest⟩
          · exact Or.inl (List.mem_cons_of_mem slot h)
          · exact Or.inr ⟨s, List.mem_cons_of_mem slot hsmem, hrest⟩
      · simp only [List.length_cons]
        omega

theorem removeItem_spec (inv : List InventoryItem) (itemId : String) (q : Nat) :
    getItemCount (removeItemFromInventory inv itemId q).1 itemId
      = getItemCount inv itemId - q ∧
    ((removeItemFromInventory inv itemId q).2 = true ↔ q ≤ getItemCount inv itemId) ∧
    (∀ other, other ≠ itemId →
      getItemCount (removeItemFromInventory inv itemId q).1 other
        = getItemCount inv other) ∧
    (∀ s' ∈ (removeItemFromInventory inv itemId q).1,
      s' ∈ inv ∨ ∃ s ∈ inv, s'.itemId = s.itemId ∧ 1 ≤ s'.quantity ∧
        s'.quantity ≤ s.quantity) ∧
    (removeItemFromInventory inv itemId q).1.length ≤ inv.length := by
  obtain ⟨h1, h2, h3, h4, h5⟩ := removeFromSlotsRev_spec itemId inv.reverse q
  unfold removeItemFromInventory
  dsimp only
  refine ⟨?_, ?_, ?_, ?_, ?_⟩
  · rw [getItemCount_reverse, h2, getItemCount_reverse]
  · simp only [beq_iff_eq]
    rw [h1, getItemCount_reverse]
    omega
  · intro other hother
    rw [getItemCount_reverse, h3 other hother, getItemCount_reverse]
  · intro s' hs'
    rw [List.mem_reverse] at hs'
    rcases h4 s' hs' with h | ⟨s, hsmem, hrest⟩
    · exact Or.inl (List.mem_reverse.mp h)
    · exact Or.inr ⟨s, List.mem_reverse.mp hsmem, hrest⟩
  · rw [List.length_reverse]
    simpa using h5

theorem forall2_mem_right {α β : Type} {R : α → β → Prop} :
    ∀ {l : List α} {l' : List β}, List.Forall₂ R l l' → ∀ s' ∈ l', ∃ s ∈ l, R s s' := by
  intro l l' h
  induction h with
  | nil =>
    intro s' hs'
    exact absurd hs' (List.not_mem_nil s')
  | cons hR hrest ih =>
    intro s' hs'
    rcases List.mem_cons.mp hs' with rfl | hs'
    · exact ⟨_, List.mem_cons_self _ _, hR⟩
    · obtain ⟨s, hmem, hr⟩ := ih s' hs'
      exact ⟨s, List.mem_cons_of_mem _ hmem, hr⟩

/-- C2: every inventory state reachable from the empty inventory through
`addItemToInventory` and `removeItemFromInventory` has at most 24 populated
slots, and no slot's quantity exceeds the configured max stack of that slot's
item nor falls below 1 (for an items config whose max stacks are all at least
1, i.e. not falsy). -/
theorem C2_inventory_invariant (config : ItemsConfig)
    (hcfg : ∀ id c, config id = some c → 1 ≤ c.maxStack)
    (inv : List InventoryItem) (hreach : InvReachable config inv) :
    InvInvariant config inv := by
  induction hreach with
  | empty =>
    refine ⟨by simp [MAX_INVENTORY_SLOTS], ?_⟩
    intro slot hslot
    exact absurd hslot (List.not_mem_nil slot)
  | add inv itemId q hprev ih =>
    cases hc : config itemId with
    | none =>
      have hnoop : addItemToInventory config inv itemId q = (inv, false) := by
        simp only [addItemToInventory, hc]
      rw [hnoop]
      exact ih
    | some cfg =>
      obtain ⟨h1, h2, h3, h4, h5⟩ := addItem_spec config inv itemId q cfg hc
      obtain ⟨topped, tail, heq, hforall, htail, hne⟩ := h5
      have hmseq : effectiveMaxStack cfg = cfg.maxStack := by
        have := hcfg itemId cfg hc
        unfold effectiveMaxStack
        split <;> omega
      obtain ⟨ihlen, ihslots⟩ := ih
      constructor
      · omega
      · intro slot hslot
        rw [heq] at hslot
        rcases List.mem_append.mp hslot with hmem | hmem
        · obtain ⟨s, hs_mem, hid, hle, hmax, huntouched⟩ :=
            forall2_mem_right hforall slot hmem
          obtain ⟨hq1, hqbound⟩ := ihslots s hs_mem
          by_cases hsi : s.itemId = itemId
          · refine ⟨by omega, ?_⟩
            intro c hcc
            rw [hid, hsi, hc] at hcc
            injection hcc with hcc
            subst hcc
            have := hqbound cfg (by rw [hsi]; exact hc)
            rw [hmseq] at hmax
            omega
          · have : slot = s := huntouched (fun hcon => hsi hcon.1)
            subst this
            exact ⟨hq1, fun c hcc => hqbound c (by rw [← hid]; exact hcc)⟩
        · obtain ⟨hid, hq1, hqms⟩ := htail slot hmem
          refine ⟨hq1, ?_⟩
          intro c hcc
          rw [hid, hc] at hcc
          injection hcc with hcc
          subst hcc
          rw [hmseq] at hqms
          exact hqms
  | remove inv itemId q hprev ih =>
    obtain ⟨h1, h2, h3, h4, h5⟩ := removeItem_spec inv itemId q
    obtain ⟨ihlen, ihslots⟩ := ih
    constructor
    · omega
    · intro slot hslot
      rcases h4 slot hslot with hmem | ⟨s, hsmem, hid, hq1, hle⟩
      · exact ihslots slot hmem
      · refine ⟨hq1, ?_⟩
        intro c hcc
        obtain ⟨_, hqbound⟩ := ihslots s hsmem
        have := hqbound c (by rw [← hid]; exact hcc)
        omega

/-- Witness for C2: the invariant holds for the state reached by adding 25
units of a 10-stack item to the empty inventory. -/
theorem C2_inventory_invariant_witness :
    InvInvariant (fun _ => some ⟨10⟩)
      (addItemToInventory (fun _ => some ⟨10⟩) [] "wood" 25).1 :=
  C2_inventory_invariant (fun _ => some ⟨10⟩)
    (fun _ c hc => by injection hc with h; rw [← h]; decide)
    _ (InvReachable.add [] "wood" 25 InvReachable.empty)

/-- C3: for every inventory, configured item and quantity, `addItemToInventory`
returns true iff all q units were placed; the item count grows by exactly
min q (free capacity), so a failing add still keeps the units it could place
(no rollback); other items are untouched; and the result decomposes into the
original slots topped up in list order (only under-full stacks of the same
item change) followed by newly created slots of that item, created only while
fewer than 24 slots were occupied. -/
theorem C3_addItem_first_fit (config : ItemsConfig) (inv : List InventoryItem)
    (itemId : String) (q : Nat) (cfg : ItemConfig) (hcfg : config itemId = some cfg) :
    ((addItemToInventory config inv itemId q).2 = true ↔
      getItemCount (addItemToInventory config inv itemId q).1 itemId
        = getItemCount inv itemId + q) ∧
    getItemCount (addItemToInventory config inv itemId q).1 itemId
      = getItemCount inv itemId + min q (addCapacity (effectiveMaxStack cfg) itemId inv) ∧
    (∀ other, other ≠ itemId →
      getItemCount (addItemToInventory config inv itemId q).1 other
        = getItemCount inv other) ∧
    ∃ topped tail, (addItemToInventory config inv itemId q).1 = topped ++ tail ∧
      List.Forall₂ (ToppedUp itemId (effectiveMaxStack cfg)) inv topped ∧
      (∀ s ∈ tail, s.itemId = itemId ∧ 1 ≤ s.quantity ∧
        s.quantity ≤ effectiveMaxStack cfg) ∧
      (tail ≠ [] → inv.length < MAX_INVENTORY_SLOTS) := by
  obtain ⟨h1, h2, h3, h4, h5⟩ := addItem_spec config inv itemId q cfg hcfg
  refine ⟨?_, h1, h3, h5⟩
  rw [h2, h1]
  omega

/-- Witness for C3: adding 3 units of a 10-stack item to the empty inventory
places all of them. -/
theorem C3_addItem_first_fit_witness :
    (addItemToInventory (fun _ => some ⟨10⟩) [] "wood" 3).2 = true ↔
      getItemCount (addItemToInventory (fun _ => some ⟨10⟩) [] "wood" 3).1 "wood"
        = getItemCount [] "wood" + 3 :=
  (C3_addItem_first_fit (fun _ => some ⟨10⟩) [] "wood" 3 ⟨10⟩ rfl).1

/-- C5: whenever `addItemToInventory` succeeds (returns true), the subsequent
`removeItemFromInventory` of the same item and quantity returns true and the
item count returns to its prior value. -/
theorem C5_add_remove_roundtrip (config : ItemsConfig) (inv : List InventoryItem)
    (itemId : String) (q : Nat)
    (hok : (addItemToInventory config inv itemId q).2 = true) :
    (removeItemFromInventory (addItemToInventory config inv itemId q).1 itemId q).2 = true ∧
    getItemCount
        (removeItemFromInventory (addItemToInventory config inv itemId q).1 itemId q).1
        itemId
      = getItemCount inv itemId := by
  cases hc : config itemId with
  | none =>
    have hnoop : addItemToInventory config inv itemId q = (inv, false) := by
      simp only [addItemToInventory, hc]
    rw [hnoop] at hok
    exact absurd hok (by simp)
  | some cfg =>
    obtain ⟨h1, h2, _, _, _⟩ := addItem_spec config inv itemId q cfg hc
    have hcount : getItemCount (addItemToInventory config inv itemId q).1 itemId
        = getItemCount inv itemId + q := by
      have := h2.mp hok
      rw [h1]
      omega
    obtain ⟨r1, r2, _, _, _⟩ :=
      removeItem_spec (addItemToInventory config inv itemId q).1 itemId q
    refine ⟨r2.mpr ?_, ?_⟩
    · rw [hcount]
      omega
    · rw [r1, hcount]
      omega

/-- Witness for C5 with a concrete successful add of 3 units. -/
theorem C5_add_remove_roundtrip_witness :
    (removeItemFromInventory
        (addItemToInventory (fun _ => some ⟨10⟩) [] "wood" 3).1 "wood" 3).2 = true ∧
    getItemCount
        (removeItemFromInventory
          (addItemToInventory (fun _ => some ⟨10⟩) [] "wood" 3).1 "wood" 3).1 "wood"
      = getItemCount [] "wood" :=
  C5_add_remove_roundtrip (fun _ => some ⟨10⟩) [] "wood" 3
    ((addItem_spec (fun _ => some ⟨10⟩) [] "wood" 3 ⟨10⟩ rfl).2.1.mpr (by decide))

/-! ## Crafting lemmas -/

theorem consumeInputs_count :
    ∀ (inputs : List (String × Nat)) (inv : List InventoryItem) (x : String),
      getItemCount (consumeInputs inputs inv) x
        = getItemCount inv x
            - ((inputs.filter (fun input => input.1 == x)).map Prod.snd).sum := by
  intro inputs
  induction inputs with
  | nil =>
    intro inv x
    simp [consumeInputs]
  | cons input rest ih =>
    intro inv x
    have hstep : consumeInputs (input :: rest) inv =
        consumeInputs rest (removeItemFromInventory inv input.1 input.2).1 := rfl
    rw [hstep, ih]
    obtain ⟨r1, _, r3, _, _⟩ := removeItem_spec inv input.1 input.2
    by_cases hx : input.1 = x
    · subst hx
      rw [r1, List.filter_cons_of_pos (by simp), List.map_cons, List.sum_cons]
      omega
    · rw [r3 x (fun hc => hx hc.symm), List.filter_cons_of_neg (by simp [hx])]

theorem filter_sum_of_nodup :
    ∀ (inputs : List (String × Nat)), (inputs.map Prod.fst).Nodup →
      ∀ iq ∈ inputs,
        ((inputs.filter (fun input => input.1 == iq.1)).map Prod.snd).sum = iq.2 := by
  intro inputs
  induction inputs with
  | nil =>
    intro _ iq h
    exact absurd h (List.not_mem_nil iq)
  | cons a rest ih =>
    intro hnodup iq hmem
    rw [List.map_cons, List.nodup_cons] at hnodup
    rcases List.mem_cons.mp hmem with rfl | hmem
    · rw [List.filter_cons_of_pos (by simp)]
      have hnil : rest.filter (fun input => input.1 == iq.1) = [] := by
        rw [List.filter_eq_nil_iff]
        intro b hb
        simp only [beq_iff_eq]
        intro hc
        exact hnodup.1 (hc ▸ List.mem_map_of_mem Prod.fst hb)
      rw [hnil]
      simp
    · have ha : ¬(a.1 == iq.1) = true := by
        simp only [beq_iff_eq]
        intro hc
        exact hnodup.1 (hc ▸ List.mem_map_of_mem Prod.fst hmem)
      rw [List.filter_cons, if_neg ha]
      exact ih hnodup.2 iq hmem

theorem filter_sum_of_not_mem (inputs : List (String × Nat)) (x : String)
    (hx : x ∉ inputs.map Prod.fst) :
    ((inputs.filter (fun input => input.1 == x)).map Prod.snd).sum = 0 := by
  have hnil : inputs.filter (fun input => input.1 == x) = [] := by
    rw [List.filter_eq_nil_iff]
    intro b hb
    simp only [beq_iff_eq]
    intro hc
    exact hx (hc ▸ List.mem_map_of_mem Prod.fst hb)
  rw [hnil]
  rfl

theorem hasRecipeInputs_iff (inv : List InventoryItem) (recipe : RecipeConfig) :
    hasRecipeInputs inv recipe = true ↔
      ∀ iq ∈ recipe.inputs, iq.2 ≤ getItemCount inv iq.1 := by
  simp [hasRecipeInputs, List.all_eq_true]

/-- C4: `tryCraft` returns false and leaves the state unchanged on an unknown
recipe, a craft already in flight, or any missing input; with sufficient
inputs and no craft in flight it returns true, deducts every input
immediately, and records the pending craft; outputs appear only when
`completeCraft` later fires, which clears the pending craft and adds only as
many output units as the inventory can hold — when it cannot hold them all the
excess is lost and the consumed inputs are not refunded. -/
theorem C4_tryCraft_semantics (config : ItemsConfig) (recipes : RecipesConfig)
    (recipeId : String) (s : CraftState) :
    (recipes recipeId = none → tryCraft recipes recipeId s = (s, false)) ∧
    (∀ j, s.activeCraft = some j → tryCraft recipes recipeId s = (s, false)) ∧
    (∀ recipe, recipes recipeId = some recipe →
      hasRecipeInputs s.inventory recipe = false →
      tryCraft recipes recipeId s = (s, false)) ∧
    (∀ recipe, recipes recipeId = some recipe → s.activeCraft = none →
      hasRecipeInputs s.inventory recipe = true →
      (tryCraft recipes recipeId s).2 = true ∧
      (tryCraft recipes recipeId s).1.activeCraft = some recipeId ∧
      ((recipe.inputs.map Prod.fst).Nodup →
        ∀ iq ∈ recipe.inputs,
          getItemCount (tryCraft recipes recipeId s).1.inventory iq.1 + iq.2
            = getItemCount s.inventory iq.1) ∧
      (∀ x, x ∉ recipe.inputs.map Prod.fst →
        getItemCount (tryCraft recipes recipeId s).1.inventory x
          = getItemCount s.inventory x)) ∧
    (∀ recipe, recipes recipeId = some recipe →
      ∀ c, config recipe.output.1 = some c →
      (completeCraft config recipes recipeId s).activeCraft = none ∧
      getItemCount (completeCraft config recipes recipeId s).inventory recipe.output.1
        = getItemCount s.inventory recipe.output.1 +
          min recipe.output.2
            (addCapacity (effectiveMaxStack c) recipe.output.1 s.inventory) ∧
      (∀ x, x ≠ recipe.output.1 →
        getItemCount (completeCraft config recipes recipeId s).inventory x
          = getItemCount s.inventory x)) := by
  refine ⟨?_, ?_, ?_, ?_, ?_⟩
  · intro h
    simp [tryCraft, h]
  · intro j hj
    cases hr : recipes recipeId with
    | none => simp [tryCraft, hr]
    | some recipe => simp [tryCraft, hr, hj]
  · intro recipe hr hmiss
    cases hact : s.activeCraft with
    | some j => simp [tryCraft, hr, hact]
    | none => simp [tryCraft, hr, hact, hmiss]
  · intro recipe hr hact hinputs
    have hres : tryCraft recipes recipeId s =
        ({ inventory := consumeInputs recipe.inputs s.inventory,
           activeCraft := some recipeId }, true) := by
      simp [tryCraft, hr, hact, hinputs]
    rw [hres]
    refine ⟨rfl, rfl, ?_, ?_⟩
    · intro hnodup iq hiq
      have hbound := (hasRecipeInputs_iff s.inventory recipe).mp hinputs iq hiq
      have := consumeInputs_count recipe.inputs s.inventory iq.1
      rw [filter_sum_of_nodup recipe.inputs hnodup iq hiq] at this
      dsimp only
      omega
    · intro x hx
      have := consumeInputs_count recipe.inputs s.inventory x
      rw [filter_sum_of_not_mem recipe.inputs x hx] at this
      dsimp only
      rw [this]
      omega
  · intro recipe hr c hcc
    have hres : completeCraft config recipes recipeId s =
        { inventory :=
            (addItemToInventory config s.inventory recipe.output.1 recipe.output.2).1,
          activeCraft := none } := by
      simp [completeCraft, hr]
    rw [hres]
    obtain ⟨h1, _, h3, _, _⟩ :=
      addItem_spec config s.inventory recipe.output.1 recipe.output.2 c hcc
    exact ⟨rfl, h1, fun x hx => h3 x hx⟩

/-- Witness for C4: a craft request while another craft is in flight is
rejected without touching the state. -/
theorem C4_tryCraft_semantics_witness :
    tryCraft (fun _ => some ⟨[("wood", 2)], ("plank", 1), 2000⟩) "plank"
        ⟨[⟨"wood", 5⟩], some "axe"⟩
      = (⟨[⟨"wood", 5⟩], some "axe"⟩, false) :=
  (C4_tryCraft_semantics (fun _ => some ⟨10⟩) (fun _ => some ⟨[("wood", 2)], ("plank", 1), 2000⟩)
    "plank" ⟨[⟨"wood", 5⟩], some "axe"⟩).2.1 "axe" rfl

/-! ## Enemy invariant lemmas -/

theorem enemy_invariant (config : EnemyConfig) (hhp : 0 ≤ config.health)
    (s : EnemyState) (hreach : EnemyReachable config s) :
    0 ≤ s.health ∧ s.deaths ≤ 1 ∧ (s.isDead = true ↔ s.deaths = 1) := by
  induction hreach with
  | spawn =>
    refine ⟨hhp, ?_, ?_⟩ <;> simp [spawnEnemyState]
  | damage s amount hprev ih =>
    obtain ⟨ih1, ih2, ih3⟩ := ih
    unfold takeDamage BaseEnemyEntity.die
    cases hd : s.isDead
    · by_cases hdie : max 0 (s.health - amount) ≤ 0
      · rw [if_neg (by simp [hd]), if_pos (by dsimp only; omega)]
        rw [if_neg (by simp [hd])]
        dsimp only
        refine ⟨by omega, ?_, ?_⟩
        · have : s.deaths ≠ 1 := fun hc => by simp [ih3.mpr hc] at hd
          omega
        · have : s.deaths ≠ 1 := fun hc => by simp [ih3.mpr hc] at hd
          simp
          omega
      · rw [if_neg (by simp [hd]), if_neg (by dsimp only; omega)]
        refine ⟨by dsimp only; omega, ih2, ?_⟩
        dsimp only
        rw [← ih3, hd]
    · rw [if_pos (by simp [hd])]
      exact ⟨ih1, ih2, ih3⟩
  | collide s now hprev ih =>
    obtain ⟨ih1, ih2, ih3⟩ := ih
    unfold onCollisionWithPlayer attackPlayer
    cases hd : s.isDead
    · by_cases hcool : now - s.attackCooldown < ATTACK_COOLDOWN_MS
      · rw [if_neg (by simp [hd]), if_pos hcool]
        exact ⟨ih1, ih2, ih3⟩
      · rw [if_neg (by simp [hd]), if_neg hcool, if_neg (by simp [hd])]
        refine ⟨ih1, ih2, ?_⟩
        dsimp only
        rw [← ih3, hd]
    · rw [if_pos (by simp [hd])]
      exact ⟨ih1, ih2, ih3⟩
  | attack s hprev ih =>
    obtain ⟨ih1, ih2, ih3⟩ := ih
    unfold attackPlayer
    cases hd : s.isDead
    · rw [if_neg (by simp [hd])]
      refine ⟨ih1, ih2, ?_⟩
      dsimp only
      rw [← ih3, hd]
    · rw [if_pos (by simp [hd])]
      exact ⟨ih1, ih2, ih3⟩

/-- C10: on every reachable enemy state, health never goes below 0 (takeDamage
clamps it), the death effects have run at most once, the dead flag is
equivalent to the death effects having run, a lethal hit on a live enemy sets
the dead flag and runs the death effects exactly once, and on a dead enemy
`takeDamage`, `attackPlayer` and the collision attack are all no-ops. -/
theorem C10_enemy_death_once (config : EnemyConfig) (hhp : 0 ≤ config.health)
    (s : EnemyState) (hreach : EnemyReachable config s) :
    0 ≤ s.health ∧ s.deaths ≤ 1 ∧ (s.isDead = true ↔ s.deaths = 1) ∧
    (∀ amount, 0 ≤ (takeDamage amount s).health) ∧
    (s.isDead = false → ∀ amount, s.health ≤ amount →
      (takeDamage amount s).isDead = true ∧
      (takeDamage amount s).deaths = s.deaths + 1) ∧
    (s.isDead = true →
      (∀ amount, takeDamage amount s = s) ∧ attackPlayer s = s ∧
      ∀ now, onCollisionWithPlayer now s = s) := by
  obtain ⟨h1, h2, h3⟩ := enemy_invariant config hhp s hreach
  refine ⟨h1, h2, h3, ?_, ?_, ?_⟩
  · intro amount
    unfold takeDamage BaseEnemyEntity.die
    cases hd : s.isDead
    · by_cases hdie : max 0 (s.health - amount) ≤ 0
      · rw [if_neg (by simp), if_pos (by dsimp only; omega)]
        rw [if_neg (by simp)]
        dsimp only
        omega
      · rw [if_neg (by simp), if_neg (by dsimp only; omega)]
        dsimp only
        omega
    · rw [if_pos (by simp [hd])]
      exact h1
  · intro hd amount hlethal
    have hdead : s.deaths ≠ 1 := fun hc => by simp [h3.mpr hc] at hd
    unfold takeDamage BaseEnemyEntity.die
    rw [if_neg (by simp [hd]), if_pos (by dsimp only; omega), if_neg (by simp [hd])]
    exact ⟨rfl, rfl⟩
  · intro hd
    refine ⟨?_, ?_, ?_⟩
    · intro amount
      unfold takeDamage
      rw [if_pos (by simp [hd])]
    · unfold attackPlayer
      rw [if_pos (by simp [hd])]
    · intro now
      unfold onCollisionWithPlayer
      rw [if_pos (by simp [hd])]

/-- Witness for C10 at a freshly spawned enemy with 30 health. -/
theorem C10_enemy_death_once_witness :
    0 ≤ (spawnEnemyState ⟨"wispling", 30, 5, 1, 10⟩).health ∧
    (spawnEnemyState ⟨"wispling", 30, 5, 1, 10⟩).deaths ≤ 1 ∧
    ((spawnEnemyState ⟨"wispling", 30, 5, 1, 10⟩).isDead = true ↔
      (spawnEnemyState ⟨"wispling", 30, 5, 1, 10⟩).deaths = 1) ∧
    (∀ amount, 0 ≤ (takeDamage amount (spawnEnemyState ⟨"wispling", 30, 5, 1, 10⟩)).health) ∧
    ((spawnEnemyState ⟨"wispling", 30, 5, 1, 10⟩).isDead = false →
      ∀ amount, (spawnEnemyState ⟨"wispling", 30, 5, 1, 10⟩).health ≤ amount →
      (takeDamage amount (spawnEnemyState ⟨"wispling", 30, 5, 1, 10⟩)).isDead = true ∧
      (takeDamage amount (spawnEnemyState ⟨"wispling", 30, 5, 1, 10⟩)).deaths =
        (spawnEnemyState ⟨"wispling", 30, 5, 1, 10⟩).deaths + 1) ∧
    ((spawnEnemyState ⟨"wispling", 30, 5, 1, 10⟩).isDead = true →
      (∀ amount, takeDamage amount (spawnEnemyState ⟨"wispling", 30, 5, 1, 10⟩) =
        spawnEnemyState ⟨"wispling", 30, 5, 1, 10⟩) ∧
      attackPlayer (spawnEnemyState ⟨"wispling", 30, 5, 1, 10⟩) =
        spawnEnemyState ⟨"wispling", 30, 5, 1, 10⟩ ∧
      ∀ now, onCollisionWithPlayer now (spawnEnemyState ⟨"wispling", 30, 5, 1, 10⟩) =
        spawnEnemyState ⟨"wispling", 30, 5, 1, 10⟩) :=
  C10_enemy_death_once ⟨"wispling", 30, 5, 1, 10⟩ (by decide) _ EnemyReachable.spawn

end NinetyNineNights
